import Mathlib

/-!
Verification of the `deref-rs` code generators.

The repository ships two compile-time generators that synthesize
`std::ops::Deref` / `std::ops::DerefMut` implementations for a structure
with one designated inner field:

* the annotation-based (derive) generator in
  `deref-derives/src/deref.rs` (`impl_deref_trait`, `find_deref_field`,
  `has_attribute`) with its two entry points in `deref-derives/src/lib.rs`;
* the pattern-based (declarative macro) generator in
  `deref/src/macros.rs` (the two macros, read-only and read-write).

This file shallowly embeds both generators.  Token streams are abstracted
to strings; the parsed declaration (`syn::DeriveInput`) is embedded as an
explicit inductive data model; the fallible generator returns `Except`.
-/

namespace DerefRs

/-- One parsed field of a structure (embedding of `syn::Field`): an optional
identifier (`None` for positional fields), the list of attribute path
identifiers attached to the field, and its declared type (as tokens). -/
structure Field where
  ident : Option String
  attrs : List String
  ty : String
deriving DecidableEq, Repr

/-- The field list of a structure declaration (embedding of `syn::Fields`):
named fields, positional (unnamed/tuple) fields, or a unit structure. -/
inductive StructFields where
  | named (fields : List Field)
  | unnamed (fields : List Field)
  | unit
deriving DecidableEq, Repr

/-- The body of a declaration (embedding of `syn::Data`): a structure with
its field list, an enumeration, or a union. -/
inductive Data where
  | struct (fields : StructFields)
  | enum
  | union
deriving DecidableEq, Repr

/-- Embedding of the declaration's generics (`syn::Generics`), kept at the
granularity `split_for_impl` produces: the impl generics (parameters with
their bounds), the type generics (parameters without bounds), and the
where clause (empty string when absent).  `split_for_impl` itself is pure
projection at this abstraction level. -/
structure Generics where
  implGenerics : String
  tyGenerics : String
  whereClause : String
deriving DecidableEq, Repr

/-- Embedding of `syn::DeriveInput`: the declaration's name, generics and
body. -/
structure DeriveInput where
  ident : String
  generics : Generics
  data : Data
deriving DecidableEq, Repr

/-- Embedding of the private `DerefField` enum of `deref.rs`: the selected
delegation field, by name or by positional index. -/
inductive DerefField where
  | named (ident : String)
  | unnamed (index : Nat)
deriving DecidableEq, Repr

/-- The compile-time diagnostics `impl_deref_trait` / `find_deref_field`
can produce, each constructor recording the data interpolated into the
`syn::Error` message and, where a particular field is blamed, the index of
that field (standing for the span `new_spanned` attaches). -/
inductive GenError where
  | onlyStructs (traitName : String)
  | onlyOneField (attrName : String) (atIndex : Nat)
  | needsName (atIndex : Nat)
  | mustHaveOne (attrName : String)
  | unitNotSupported
deriving DecidableEq, Repr

/-- Rendering of each diagnostic's message text, following the `format!`
strings in `deref.rs` (braces elided since the interpolation is explicit). -/
def GenError.message : GenError → String
  | .onlyStructs t => t ++ " can only be used on structs"
  | .onlyOneField a _ => "Only one field can be marked with #[" ++ a ++ "]"
  | .needsName _ => "Field must have a name"
  | .mustHaveOne a => "Must have one field marked with #[" ++ a ++ "]"
  | .unitNotSupported => "Unit structs are not supported"

/-- Embedding of `has_attribute` in `deref.rs`: whether any attribute in
the list has the given name as its path (`attr.path().is_ident(name)`). -/
def has_attribute (attrs : List String) (name : String) : Bool :=
  attrs.any (fun attr => attr = name)

/-- The named-fields scan loop of `find_deref_field`, over the field list
paired with positional indices (the index stands for the field's span).
For each field carrying the attribute: a second hit is an immediate
"Only one field" error at that field; a marked field without an identifier
is a "Field must have a name" error; otherwise the field and its type are
recorded.  Unmarked fields are skipped. -/
def findNamedLoop (attrName : String) :
    List (Nat × Field) → Option DerefField → Option String →
    Except GenError (Option DerefField × Option String)
  | [], df, ft => .ok (df, ft)
  | (i, f) :: rest, df, ft =>
    if has_attribute f.attrs attrName then
      if df.isSome then
        .error (.onlyOneField attrName i)
      else
        match f.ident with
        | some id => findNamedLoop attrName rest (some (.named id)) (some f.ty)
        | none => .error (.needsName i)
    else
      findNamedLoop attrName rest df ft

/-- The unnamed-fields scan loop of `find_deref_field`, over the
enumerated field list: same duplicate check as the named loop, recording
the positional index instead of an identifier (no name check). -/
def findUnnamedLoop (attrName : String) :
    List (Nat × Field) → Option Nat → Option String →
    Except GenError (Option Nat × Option String)
  | [], di, ft => .ok (di, ft)
  | (i, f) :: rest, di, ft =>
    if has_attribute f.attrs attrName then
      if di.isSome then
        .error (.onlyOneField attrName i)
      else
        findUnnamedLoop attrName rest (some i) (some f.ty)
    else
      findUnnamedLoop attrName rest di ft

/-- Embedding of `find_deref_field` in `deref.rs`: scan the field list for
the unique field marked with the given attribute.  Named and unnamed field
lists each run their loop and then require that both a field and its type
were accumulated ("Must have one field marked" otherwise); unit structures
are rejected outright. -/
def find_deref_field (fields : StructFields) (attrName : String) :
    Except GenError (DerefField × String) :=
  match fields with
  | .named fs =>
    match findNamedLoop attrName fs.enum none none with
    | .error e => .error e
    | .ok (some df, some ty) => .ok (df, ty)
    | .ok _ => .error (.mustHaveOne attrName)
  | .unnamed fs =>
    match findUnnamedLoop attrName fs.enum none none with
    | .error e => .error e
    | .ok (some i, some ty) => .ok (.unnamed i, ty)
    | .ok _ => .error (.mustHaveOne attrName)
  | .unit => .error .unitNotSupported

/-- One generated trait implementation block, the embedding of what one
`quote!` block in `impl_deref_trait` emits: the trait implemented, the
impl generics / implementing type name / type generics / where clause
interpolated into the header, the `type Target = ...;` item when the block
declares one (the `Deref` block does, the `DerefMut` block relies on
`Self::Target`), the field the accessor body references, and whether the
body takes `&mut` (the `deref_mut` accessor) or `&` (the `deref`
accessor). -/
structure TraitImpl where
  traitName : String
  implGenerics : String
  selfName : String
  tyGenerics : String
  whereClause : String
  targetDecl : Option String
  field : DerefField
  isMut : Bool
deriving DecidableEq, Repr

/-- The attribute name `impl_deref_trait` scans for, by mutability flag. -/
def attrNameOf (is_mut : Bool) : String :=
  if is_mut then "deref_mut" else "deref"

/-- The trait name `impl_deref_trait` reports in the non-struct
diagnostic, by mutability flag. -/
def traitNameOf (is_mut : Bool) : String :=
  if is_mut then "DerefMut" else "Deref"

/-- Embedding of `impl_deref_trait` in `deref.rs`: reject non-structures,
find the unique marked field, then emit the `Deref` implementation and,
when `is_mut` is set, additionally the `DerefMut` implementation, both
carrying the declaration's generics and where clause. -/
def impl_deref_trait (input : DeriveInput) (is_mut : Bool) :
    Except GenError (List TraitImpl) :=
  let attr_name := attrNameOf is_mut
  let trait_name := traitNameOf is_mut
  match input.data with
  | .struct fields =>
    match find_deref_field fields attr_name with
    | .error e => .error e
    | .ok (deref_field, field_type) =>
      let deref_impl : TraitImpl :=
        { traitName := "Deref"
          implGenerics := input.generics.implGenerics
          selfName := input.ident
          tyGenerics := input.generics.tyGenerics
          whereClause := input.generics.whereClause
          targetDecl := some field_type
          field := deref_field
          isMut := false }
      if is_mut then
        let deref_mut_impl : TraitImpl :=
          { deref_impl with
              traitName := "DerefMut"
              targetDecl := none
              isMut := true }
        .ok [deref_impl, deref_mut_impl]
      else
        .ok [deref_impl]
  | _ => .error (.onlyStructs trait_name)

/-- The helper attribute name both derive entry points in `lib.rs`
register (`attributes(auto_ref)` on each `proc_macro_derive`). -/
def registeredHelperAttr : String := "auto_ref"

/-- Embedding of the `derive(Deref)` entry point in `lib.rs`: delegates to
`impl_deref_trait` with the mutability flag unset. -/
def derive_deref (input : DeriveInput) : Except GenError (List TraitImpl) :=
  impl_deref_trait input false

/-- Embedding of the `derive(DerefMut)` entry point in `lib.rs`: delegates
to `impl_deref_trait` with the mutability flag set. -/
def derive_deref_mut (input : DeriveInput) : Except GenError (List TraitImpl) :=
  impl_deref_trait input true

/-- The marked fields of a field list: the fields carrying the given
attribute, paired with their positional indices, in declaration order.
This mirrors which iterations of the scan loops take the marked branch. -/
def markedFields (attrName : String) (fs : List Field) : List (Nat × Field) :=
  fs.enum.filter (fun p => has_attribute p.2.attrs attrName)

/-- The field list of a structure declaration's fields, when it has one
(`none` for unit structures). -/
def fieldList : StructFields → Option (List Field)
  | .named fs => some fs
  | .unnamed fs => some fs
  | .unit => none

/-- How the generator identifies field number `i` (which is field `f`) of
the given field list: by its identifier for named fields, by its index for
positional fields. -/
def fieldSel : StructFields → Nat → Field → Option DerefField
  | .named _, _, f => f.ident.map DerefField.named
  | .unnamed _, i, _ => some (.unnamed i)
  | .unit, _, _ => none

/-- Whether every named field of the declaration carries an identifier
(which `syn` guarantees for parsed source; `find_deref_field` re-checks it
defensively). -/
def namedWF : StructFields → Bool
  | .named fs => fs.all (fun f => f.ident.isSome)
  | _ => true

/-- A sample generics triple for concrete instantiations. -/
def sampleGenerics : Generics :=
  { implGenerics := "<T>", tyGenerics := "<T>", whereClause := "" }

/-- A sample named field marked for both entry points. -/
def sampleField : Field :=
  { ident := some "inner", attrs := ["deref", "deref_mut"], ty := "T" }

/-- A sample structure declaration with exactly one marked named field. -/
def sampleInput : DeriveInput :=
  { ident := "Hello", generics := sampleGenerics
    data := .struct (.named [sampleField]) }

/-- An empty named-field structure declaration (`struct E {}`). -/
def emptyNamedInput : DeriveInput :=
  { ident := "E", generics := sampleGenerics, data := .struct (.named []) }

/-- The optional generic-parameter group of the declarative macros'
grammar in `macros.rs`: an optional lifetime list and an optional list of
type parameters, each with an optional single trait-bound token. -/
structure GenericGroup where
  lifetimes : List String
  params : List (String × Option String)
deriving DecidableEq, Repr

/-- The optional generic-argument group following the implementing type's
name in the macros' grammar: an optional lifetime list and an optional
type-argument list (no bounds). -/
structure TypeArgGroup where
  lifetimes : List String
  args : List String
deriving DecidableEq, Repr

/-- One accepted argument list of the declarative macros (both share the
same grammar): optional generic-parameter group, implementing type name,
optional generic-argument group, target type expression, and the
field-access token (identifier or index). -/
structure PatternArgs where
  generics : Option GenericGroup
  tyName : String
  tyArgs : Option TypeArgGroup
  target : String
  field : String
deriving DecidableEq, Repr

/-- One trait implementation emitted by the declarative macros.  `target`
is the implementation's `Target` type: the read-only macro declares
`type Target = ...` explicitly, while the read-write macro's `DerefMut`
block returns `&mut Self::Target`, which the `Deref` block it just emitted
for the same type fixes to the same target argument, so the resolved
target is recorded for both. -/
structure PatternImpl where
  traitName : String
  generics : Option GenericGroup
  tyName : String
  tyArgs : Option TypeArgGroup
  target : String
  field : String
  isMut : Bool
deriving DecidableEq, Repr

/-- Embedding of the read-only declarative macro in `macros.rs`: expands
to a single `Deref` implementation built from the supplied argument
groups, with a body returning `&self.field`. -/
def derefExpand (a : PatternArgs) : List PatternImpl :=
  [{ traitName := "Deref", generics := a.generics, tyName := a.tyName,
     tyArgs := a.tyArgs, target := a.target, field := a.field,
     isMut := false }]

/-- Embedding of the read-write declarative macro in `macros.rs`: it first
re-invokes the read-only macro with the identical argument list, then
additionally emits the `DerefMut` implementation over the same generic
groups, type, and field, with a body returning `&mut self.field`. -/
def deref_mutExpand (a : PatternArgs) : List PatternImpl :=
  derefExpand a ++
    [{ traitName := "DerefMut", generics := a.generics, tyName := a.tyName,
       tyArgs := a.tyArgs, target := a.target, field := a.field,
       isMut := true }]

/-- A named field carrying no attributes. -/
def plainField : Field := { ident := some "plain", attrs := [], ty := "P" }

/-- A named field marked for the read entry point. -/
def fieldA : Field := { ident := some "a", attrs := ["deref"], ty := "A" }

/-- A second named field marked for the read entry point. -/
def fieldB : Field := { ident := some "b", attrs := ["deref"], ty := "B" }

/-- A named field marked only with the registered helper attribute. -/
def autoField : Field :=
  { ident := some "inner", attrs := ["auto_ref"], ty := "T" }

/-- A declaration with two fields marked for the read entry point. -/
def twoMarkedInput : DeriveInput :=
  { ident := "Two", generics := sampleGenerics
    data := .struct (.named [fieldA, fieldB]) }

/-- A declaration with one field, which carries no marker. -/
def noMarkedInput : DeriveInput :=
  { ident := "Plain", generics := sampleGenerics
    data := .struct (.named [plainField]) }

/-- A unit structure declaration (`struct U;`). -/
def unitInput : DeriveInput :=
  { ident := "U", generics := sampleGenerics, data := .struct .unit }

/-- An empty positional-field structure declaration (`struct E();`). -/
def emptyUnnamedInput : DeriveInput :=
  { ident := "E2", generics := sampleGenerics
    data := .struct (.unnamed []) }

/-- An enumeration declaration. -/
def enumInput : DeriveInput :=
  { ident := "En", generics := sampleGenerics, data := .enum }

/-- A declaration whose only field is marked with the registered helper
attribute and nothing else. -/
def autoRefInput : DeriveInput :=
  { ident := "Auto", generics := sampleGenerics
    data := .struct (.named [autoField]) }

/-- The `Deref` implementation generated for `sampleInput`. -/
def sampleDerefImpl : TraitImpl :=
  { traitName := "Deref", implGenerics := "<T>", selfName := "Hello"
    tyGenerics := "<T>", whereClause := "", targetDecl := some "T"
    field := .named "inner", isMut := false }

/-- The `DerefMut` implementation generated for `sampleInput`. -/
def sampleDerefMutImpl : TraitImpl :=
  { sampleDerefImpl with
      traitName := "DerefMut", targetDecl := none, isMut := true }

/-- The output of the read-only entry point on `sampleInput`. -/
def sampleReadImpls : List TraitImpl := [sampleDerefImpl]

/-- The output of the read-write entry point on `sampleInput`. -/
def sampleMutImpls : List TraitImpl := [sampleDerefImpl, sampleDerefMutImpl]

theorem findNamedLoop_no_marked (attrName : String) (l : List (Nat × Field))
    (df : Option DerefField) (ft : Option String)
    (h : l.filter (fun p => has_attribute p.2.attrs attrName) = []) :
    findNamedLoop attrName l df ft = .ok (df, ft) := by
  induction l generalizing df ft with
  | nil => rfl
  | cons p rest ih =>
    obtain ⟨i, f⟩ := p
    rw [List.filter_cons] at h
    by_cases hm : has_attribute f.attrs attrName = true
    · simp [hm] at h
    · simp only [findNamedLoop, hm, if_false]
      exact ih df ft (by simpa [hm] using h)

theorem findNamedLoop_dup (attrName : String) (l : List (Nat × Field))
    (d : DerefField) (ft : Option String) (q : Nat × Field)
    (h : (l.filter (fun p => has_attribute p.2.attrs attrName)).head? = some q) :
    findNamedLoop attrName l (some d) ft = .error (.onlyOneField attrName q.1) := by
  induction l generalizing ft with
  | nil => simp at h
  | cons p rest ih =>
    obtain ⟨i, f⟩ := p
    rw [List.filter_cons] at h
    by_cases hm : has_attribute f.attrs attrName = true
    · simp only [hm, if_true, List.head?_cons, Option.some.injEq] at h
      subst h
      simp [findNamedLoop, hm]
    · simp only [hm] at h
      simp only [findNamedLoop, hm, if_false]
      exact ih ft (by simpa [hm] using h)

theorem findNamedLoop_one (attrName : String) (l : List (Nat × Field))
    (q : Nat × Field) (id : String)
    (h : l.filter (fun p => has_attribute p.2.attrs attrName) = [q])
    (hid : q.2.ident = some id) :
    findNamedLoop attrName l none none =
      .ok (some (.named id), some q.2.ty) := by
  induction l with
  | nil => simp at h
  | cons p rest ih =>
    obtain ⟨i, f⟩ := p
    rw [List.filter_cons] at h
    by_cases hm : has_attribute f.attrs attrName = true
    · simp only [hm, if_true, List.cons.injEq] at h
      obtain ⟨hq, hrest⟩ := h
      subst hq
      have hid2 : f.ident = some id := hid
      simp only [findNamedLoop, hm, if_true, Option.isSome_none, Bool.false_eq_true,
        if_false, hid2]
      exact findNamedLoop_no_marked attrName rest _ _ hrest
    · simp only [hm] at h
      simp only [findNamedLoop, hm, if_false]
      exact ih (by simpa [hm] using h)

theorem findNamedLoop_two (attrName : String) (l : List (Nat × Field))
    (q₁ q₂ : Nat × Field) (tl : List (Nat × Field)) (id : String)
    (h : l.filter (fun p => has_attribute p.2.attrs attrName) = q₁ :: q₂ :: tl)
    (hid : q₁.2.ident = some id) :
    findNamedLoop attrName l none none = .error (.onlyOneField attrName q₂.1) := by
  induction l with
  | nil => simp at h
  | cons p rest ih =>
    obtain ⟨i, f⟩ := p
    rw [List.filter_cons] at h
    by_cases hm : has_attribute f.attrs attrName = true
    · simp only [hm, if_true, List.cons.injEq] at h
      obtain ⟨hq, hrest⟩ := h
      subst hq
      have hid2 : f.ident = some id := hid
      simp only [findNamedLoop, hm, if_true, Option.isSome_none, Bool.false_eq_true,
        if_false, hid2]
      exact findNamedLoop_dup attrName rest _ _ q₂ (by rw [hrest]; rfl)
    · simp only [hm] at h
      simp only [findNamedLoop, hm, if_false]
      exact ih (by simpa [hm] using h)

theorem findUnnamedLoop_no_marked (attrName : String) (l : List (Nat × Field))
    (di : Option Nat) (ft : Option String)
    (h : l.filter (fun p => has_attribute p.2.attrs attrName) = []) :
    findUnnamedLoop attrName l di ft = .ok (di, ft) := by
  induction l generalizing di ft with
  | nil => rfl
  | cons p rest ih =>
    obtain ⟨i, f⟩ := p
    rw [List.filter_cons] at h
    by_cases hm : has_attribute f.attrs attrName = true
    · simp [hm] at h
    · simp only [findUnnamedLoop, hm, if_false]
      exact ih di ft (by simpa [hm] using h)

theorem findUnnamedLoop_dup (attrName : String) (l : List (Nat × Field))
    (d : Nat) (ft : Option String) (q : Nat × Field)
    (h : (l.filter (fun p => has_attribute p.2.attrs attrName)).head? = some q) :
    findUnnamedLoop attrName l (some d) ft = .error (.onlyOneField attrName q.1) := by
  induction l generalizing ft with
  | nil => simp at h
  | cons p rest ih =>
    obtain ⟨i, f⟩ := p
    rw [List.filter_cons] at h
    by_cases hm : has_attribute f.attrs attrName = true
    · simp only [hm, if_true, List.head?_cons, Option.some.injEq] at h
      subst h
      simp [findUnnamedLoop, hm]
    · simp only [hm] at h
      simp only [findUnnamedLoop, hm, if_false]
      exact ih ft (by simpa [hm] using h)

theorem findUnnamedLoop_one (attrName : String) (l : List (Nat × Field))
    (q : Nat × Field)
    (h : l.filter (fun p => has_attribute p.2.attrs attrName) = [q]) :
    findUnnamedLoop attrName l none none = .ok (some q.1, some q.2.ty) := by
  induction l with
  | nil => simp at h
  | cons p rest ih =>
    obtain ⟨i, f⟩ := p
    rw [List.filter_cons] at h
    by_cases hm : has_attribute f.attrs attrName = true
    · simp only [hm, if_true, List.cons.injEq] at h
      obtain ⟨hq, hrest⟩ := h
      subst hq
      simp only [findUnnamedLoop, hm, if_true, Option.isSome_none, Bool.false_eq_true,
        if_false]
      exact findUnnamedLoop_no_marked attrName rest _ _ hrest
    · simp only [hm] at h
      simp only [findUnnamedLoop, hm, if_false]
      exact ih (by simpa [hm] using h)

theorem findUnnamedLoop_two (attrName : String) (l : List (Nat × Field))
    (q₁ q₂ : Nat × Field) (tl : List (Nat × Field))
    (h : l.filter (fun p => has_attribute p.2.attrs attrName) = q₁ :: q₂ :: tl) :
    findUnnamedLoop attrName l none none = .error (.onlyOneField attrName q₂.1) := by
  induction l with
  | nil => simp at h
  | cons p rest ih =>
    obtain ⟨i, f⟩ := p
    rw [List.filter_cons] at h
    by_cases hm : has_attribute f.attrs attrName = true
    · simp only [hm, if_true, List.cons.injEq] at h
      obtain ⟨hq, hrest⟩ := h
      subst hq
      simp only [findUnnamedLoop, hm, if_true, Option.isSome_none, Bool.false_eq_true,
        if_false]
      exact findUnnamedLoop_dup attrName rest _ _ q₂ (by rw [hrest]; rfl)
    · simp only [hm] at h
      simp only [findUnnamedLoop, hm, if_false]
      exact ih (by simpa [hm] using h)

theorem find_deref_field_zero (fields : StructFields) (fs : List Field)
    (attrName : String) (hfs : fieldList fields = some fs)
    (h : markedFields attrName fs = []) :
    find_deref_field fields attrName = .error (.mustHaveOne attrName) := by
  simp only [markedFields] at h
  cases fields with
  | named fs' =>
    obtain rfl : fs' = fs := by simpa [fieldList] using hfs
    simp only [find_deref_field, findNamedLoop_no_marked attrName fs'.enum none none h]
  | unnamed fs' =>
    obtain rfl : fs' = fs := by simpa [fieldList] using hfs
    simp only [find_deref_field, findUnnamedLoop_no_marked attrName fs'.enum none none h]
  | unit => cases hfs

theorem find_deref_field_one (fields : StructFields) (fs : List Field)
    (attrName : String) (i : Nat) (f : Field) (sel : DerefField)
    (hfs : fieldList fields = some fs)
    (h : markedFields attrName fs = [(i, f)])
    (hsel : fieldSel fields i f = some sel) :
    find_deref_field fields attrName = .ok (sel, f.ty) := by
  simp only [markedFields] at h
  cases fields with
  | named fs' =>
    obtain rfl : fs' = fs := by simpa [fieldList] using hfs
    obtain ⟨id, hid, rfl⟩ : ∃ id, f.ident = some id ∧ sel = .named id := by
      simpa [fieldSel, Option.map_eq_some', eq_comm] using hsel
    simp only [find_deref_field, findNamedLoop_one attrName fs'.enum (i, f) id h hid]
  | unnamed fs' =>
    obtain rfl : fs' = fs := by simpa [fieldList] using hfs
    obtain rfl : sel = .unnamed i := by simpa [fieldSel, eq_comm] using hsel
    simp only [find_deref_field, findUnnamedLoop_one attrName fs'.enum (i, f) h]
  | unit => cases hfs

theorem find_deref_field_two (fields : StructFields) (fs : List Field)
    (attrName : String) (i j : Nat) (f g : Field) (tl : List (Nat × Field))
    (hfs : fieldList fields = some fs)
    (h : markedFields attrName fs = (i, f) :: (j, g) :: tl)
    (hwf : namedWF fields = true) :
    find_deref_field fields attrName = .error (.onlyOneField attrName j) := by
  simp only [markedFields] at h
  cases fields with
  | named fs' =>
    obtain rfl : fs' = fs := by simpa [fieldList] using hfs
    have hmem : (i, f) ∈ fs'.enum := by
      have : (i, f) ∈ fs'.enum.filter (fun p => has_attribute p.2.attrs attrName) := by
        rw [h]; exact List.mem_cons_self _ _
      exact List.mem_of_mem_filter this
    have hfmem : f ∈ fs' := List.getElem?_mem (List.mem_enum_iff_getElem?.mp hmem)
    have hsome : f.ident.isSome := by
      simp only [namedWF, List.all_eq_true] at hwf
      exact hwf f hfmem
    obtain ⟨id, hid⟩ := Option.isSome_iff_exists.mp hsome
    simp only [find_deref_field,
      findNamedLoop_two attrName fs'.enum (i, f) (j, g) tl id h hid]
  | unnamed fs' =>
    obtain rfl : fs' = fs := by simpa [fieldList] using hfs
    simp only [find_deref_field,
      findUnnamedLoop_two attrName fs'.enum (i, f) (j, g) tl h]
  | unit => cases hfs

theorem impl_deref_trait_zero_marked (input : DeriveInput) (m : Bool)
    (fields : StructFields) (fs : List Field)
    (hdata : input.data = .struct fields) (hfs : fieldList fields = some fs)
    (h : markedFields (attrNameOf m) fs = []) :
    impl_deref_trait input m = .error (.mustHaveOne (attrNameOf m)) := by
  simp only [impl_deref_trait, hdata,
    find_deref_field_zero fields fs (attrNameOf m) hfs h]

theorem impl_deref_trait_one_marked (input : DeriveInput) (m : Bool)
    (fields : StructFields) (fs : List Field) (i : Nat) (f : Field)
    (sel : DerefField)
    (hdata : input.data = .struct fields) (hfs : fieldList fields = some fs)
    (hone : markedFields (attrNameOf m) fs = [(i, f)])
    (hsel : fieldSel fields i f = some sel) :
    ∃ rest,
      impl_deref_trait input m =
        .ok ({ traitName := "Deref"
               implGenerics := input.generics.implGenerics
               selfName := input.ident
               tyGenerics := input.generics.tyGenerics
               whereClause := input.generics.whereClause
               targetDecl := some f.ty
               field := sel
               isMut := false } :: rest) := by
  have hfind := find_deref_field_one fields fs (attrNameOf m) i f sel hfs hone hsel
  cases m with
  | false =>
    exact ⟨[], by simp [impl_deref_trait, hdata, hfind]⟩
  | true =>
    refine ⟨[{ traitName := "DerefMut"
               implGenerics := input.generics.implGenerics
               selfName := input.ident
               tyGenerics := input.generics.tyGenerics
               whereClause := input.generics.whereClause
               targetDecl := none
               field := sel
               isMut := true }], ?_⟩
    simp [impl_deref_trait, hdata, hfind]

theorem impl_deref_trait_two_marked (input : DeriveInput) (m : Bool)
    (fields : StructFields) (fs : List Field) (i j : Nat) (f g : Field)
    (tl : List (Nat × Field))
    (hdata : input.data = .struct fields) (hfs : fieldList fields = some fs)
    (h : markedFields (attrNameOf m) fs = (i, f) :: (j, g) :: tl)
    (hwf : namedWF fields = true) :
    impl_deref_trait input m = .error (.onlyOneField (attrNameOf m) j) := by
  simp only [impl_deref_trait, hdata,
    find_deref_field_two fields fs (attrNameOf m) i j f g tl hfs h hwf]

/-- C1: for every structure declaration with exactly one field marked for
delegation (named, or positional at index `i`) of declared type `T`, the
annotation-based generator succeeds, and the first implementation it emits
is the read accessor: its `Target` type is `T` and its body references
exactly that field (by name for named fields, by index for positional
fields). -/
theorem derive_one_marked_emits_read_accessor (input : DeriveInput)
    (m : Bool) (fields : StructFields) (fs : List Field) (i : Nat)
    (f : Field) (sel : DerefField)
    (hdata : input.data = .struct fields)
    (hfs : fieldList fields = some fs)
    (hone : markedFields (attrNameOf m) fs = [(i, f)])
    (hsel : fieldSel fields i f = some sel) :
    ∃ d rest, impl_deref_trait input m = .ok (d :: rest) ∧
      d.traitName = "Deref" ∧ d.targetDecl = some f.ty ∧ d.field = sel ∧
      d.isMut = false := by
  obtain ⟨rest, hrest⟩ :=
    impl_deref_trait_one_marked input m fields fs i f sel hdata hfs hone hsel
  exact ⟨_, rest, hrest, rfl, rfl, rfl, rfl⟩

/-- C1 witness: on a concrete structure with one marked named field of
type `T`, the read accessor emitted first targets `T` and references the
field `inner`. -/
theorem derive_one_marked_emits_read_accessor_witness :
    ∃ d rest, impl_deref_trait sampleInput false = .ok (d :: rest) ∧
      d.traitName = "Deref" ∧ d.targetDecl = some sampleField.ty ∧
      d.field = DerefField.named "inner" ∧ d.isMut = false :=
  derive_one_marked_emits_read_accessor sampleInput false
    (.named [sampleField]) [sampleField] 0 sampleField
    (.named "inner") rfl rfl (by decide) (by decide)

/-- C2: for every structure declaration (named or positional) in which
two or more fields carry the recognized marker, the generator fails with
the "Only one field" diagnostic, reported at the second marked field
encountered (`j` is the index of the second element of the marked-field
list), for every choice of marked fields. -/
theorem derive_two_marked_fails_only_one_field (input : DeriveInput)
    (m : Bool) (fields : StructFields) (fs : List Field) (i j : Nat)
    (f g : Field) (tl : List (Nat × Field))
    (hdata : input.data = .struct fields)
    (hfs : fieldList fields = some fs)
    (h : markedFields (attrNameOf m) fs = (i, f) :: (j, g) :: tl)
    (hwf : namedWF fields = true) :
    impl_deref_trait input m = .error (.onlyOneField (attrNameOf m) j) ∧
    (GenError.onlyOneField (attrNameOf m) j).message =
      "Only one field can be marked with #[" ++ attrNameOf m ++ "]" :=
  ⟨impl_deref_trait_two_marked input m fields fs i j f g tl hdata hfs h hwf,
   rfl⟩

/-- C2 witness: on a concrete structure with two marked fields, the
generator fails with the "Only one field" diagnostic at the second marked
field (index 1). -/
theorem derive_two_marked_fails_only_one_field_witness :
    impl_deref_trait twoMarkedInput false =
      .error (.onlyOneField (attrNameOf false) 1) ∧
    (GenError.onlyOneField (attrNameOf false) 1).message =
      "Only one field can be marked with #[" ++ attrNameOf false ++ "]" :=
  derive_two_marked_fails_only_one_field twoMarkedInput false
    (.named [fieldA, fieldB]) [fieldA, fieldB] 0 1 fieldA fieldB []
    rfl rfl (by decide) (by decide)

/-- C3: for every structure declaration (named or positional) in which no
field carries the recognized marker, the generator fails with the
"Must have one field marked" diagnostic; it never selects a default
field. -/
theorem derive_zero_marked_fails_must_have_one (input : DeriveInput)
    (m : Bool) (fields : StructFields) (fs : List Field)
    (hdata : input.data = .struct fields)
    (hfs : fieldList fields = some fs)
    (h : markedFields (attrNameOf m) fs = []) :
    impl_deref_trait input m = .error (.mustHaveOne (attrNameOf m)) ∧
    (GenError.mustHaveOne (attrNameOf m)).message =
      "Must have one field marked with #[" ++ attrNameOf m ++ "]" :=
  ⟨impl_deref_trait_zero_marked input m fields fs hdata hfs h, rfl⟩

/-- C3 witness: on a concrete structure whose single field carries no
marker, the generator fails with the "Must have one field marked"
diagnostic. -/
theorem derive_zero_marked_fails_must_have_one_witness :
    impl_deref_trait noMarkedInput false =
      .error (.mustHaveOne (attrNameOf false)) ∧
    (GenError.mustHaveOne (attrNameOf false)).message =
      "Must have one field marked with #[" ++ attrNameOf false ++ "]" :=
  derive_zero_marked_fails_must_have_one noMarkedInput false
    (.named [plainField]) [plainField] rfl rfl (by decide)

/-- C4: with the mutable flag set, every successful run emits exactly the
read accessor followed by the mutable accessor for the same field (the
mutable variant is never standalone); with the flag unset only the read
accessor is emitted; and a failing run emits nothing (the result is an
error carrying no implementations). -/
theorem derive_mut_pairing_no_partial_emission (input : DeriveInput) :
    (∀ impls, impl_deref_trait input true = .ok impls →
      ∃ d dm, impls = [d, dm] ∧ d.traitName = "Deref" ∧ d.isMut = false ∧
        d.targetDecl.isSome = true ∧ dm.traitName = "DerefMut" ∧
        dm.isMut = true ∧ dm.field = d.field) ∧
    (∀ impls, impl_deref_trait input false = .ok impls →
      ∃ d, impls = [d] ∧ d.traitName = "Deref" ∧ d.isMut = false) ∧
    (∀ m e, impl_deref_trait input m = .error e →
      ∀ impls, impl_deref_trait input m ≠ .ok impls) := by
  obtain ⟨nm, gen, data⟩ := input
  refine ⟨?_, ?_, ?_⟩
  · intro impls h
    cases data with
    | struct fields =>
      simp only [impl_deref_trait] at h
      cases hfind : find_deref_field fields (attrNameOf true) with
      | error e => rw [hfind] at h; cases h
      | ok p =>
        obtain ⟨df, ty⟩ := p
        rw [hfind] at h
        simp only [if_true] at h
        injection h with h'
        exact ⟨_, _, h'.symm, rfl, rfl, rfl, rfl, rfl, rfl⟩
    | enum => simp only [impl_deref_trait] at h; cases h
    | union => simp only [impl_deref_trait] at h; cases h
  · intro impls h
    cases data with
    | struct fields =>
      simp only [impl_deref_trait] at h
      cases hfind : find_deref_field fields (attrNameOf false) with
      | error e => rw [hfind] at h; cases h
      | ok p =>
        obtain ⟨df, ty⟩ := p
        rw [hfind] at h
        simp only [Bool.false_eq_true, if_false] at h
        injection h with h'
        exact ⟨_, h'.symm, rfl, rfl⟩
    | enum => simp only [impl_deref_trait] at h; cases h
    | union => simp only [impl_deref_trait] at h; cases h
  · intro m e he impls h
    rw [he] at h
    cases h

/-- C4 witness: on a concrete declaration, the read-write entry point
emits the `Deref`/`DerefMut` pair, the read-only entry point emits only
`Deref`, and a failing run (an enumeration) is incompatible with any
emission. -/
theorem derive_mut_pairing_no_partial_emission_witness :
    (∃ d dm, sampleMutImpls = [d, dm] ∧ d.traitName = "Deref" ∧
      d.isMut = false ∧ d.targetDecl.isSome = true ∧
      dm.traitName = "DerefMut" ∧ dm.isMut = true ∧ dm.field = d.field) ∧
    (∃ d, sampleReadImpls = [d] ∧ d.traitName = "Deref" ∧
      d.isMut = false) ∧
    (∀ impls, impl_deref_trait enumInput false ≠ .ok impls) :=
  ⟨(derive_mut_pairing_no_partial_emission sampleInput).1
      sampleMutImpls rfl,
   (derive_mut_pairing_no_partial_emission sampleInput).2.1
      sampleReadImpls rfl,
   (derive_mut_pairing_no_partial_emission enumInput).2.2
      false (.onlyStructs "Deref") rfl⟩

/-- C5: the read-write declarative macro re-invokes the read-only one on
the identical argument list — its expansion starts with exactly the
read-only expansion — and additionally emits one `DerefMut`
implementation with the same generic-parameter group, same implementing
type (name and generic arguments), same target type, and the same
field-access token, with a mutable body. -/
theorem deref_mut_reinvokes_read_expansion (a : PatternArgs) :
    (deref_mutExpand a).take (derefExpand a).length = derefExpand a ∧
    (deref_mutExpand a).length = (derefExpand a).length + 1 ∧
    (deref_mutExpand a).getLast? = some
      { traitName := "DerefMut", generics := a.generics
        tyName := a.tyName, tyArgs := a.tyArgs, target := a.target
        field := a.field, isMut := true } ∧
    (derefExpand a).head? = some
      { traitName := "Deref", generics := a.generics, tyName := a.tyName
        tyArgs := a.tyArgs, target := a.target, field := a.field
        isMut := false } :=
  ⟨rfl, rfl, rfl, rfl⟩

/-- C6 counterexample: an empty named-field structure is a zero-field
structure, yet the generator reports the zero-marked-fields cardinality
diagnostic ("Must have one field marked"), not the shape diagnostic
("Unit structs are not supported"), refuting the claim that every
zero-field structure gets the shape diagnostic. -/
theorem empty_named_struct_gets_cardinality_diagnostic :
    impl_deref_trait emptyNamedInput false =
      .error (.mustHaveOne "deref") ∧
    GenError.mustHaveOne "deref" ≠ GenError.unitNotSupported ∧
    (GenError.mustHaveOne "deref").message ≠
      GenError.unitNotSupported.message := by
  refine ⟨rfl, by decide, by decide⟩

/-- C6 amended: among zero-field structures, only unit structures fail
with the shape diagnostic "Unit structs are not supported"; empty
named-field and empty positional-field structures fail with the
zero-marked cardinality diagnostic "Must have one field marked". -/
theorem zero_field_struct_diagnostics (input : DeriveInput) (m : Bool) :
    (input.data = .struct .unit →
      impl_deref_trait input m = .error .unitNotSupported) ∧
    (input.data = .struct (.named []) →
      impl_deref_trait input m = .error (.mustHaveOne (attrNameOf m))) ∧
    (input.data = .struct (.unnamed []) →
      impl_deref_trait input m = .error (.mustHaveOne (attrNameOf m))) := by
  refine ⟨fun h => ?_, fun h => ?_, fun h => ?_⟩
  · simp [impl_deref_trait, h, find_deref_field]
  · exact impl_deref_trait_zero_marked input m (.named []) [] h rfl rfl
  · exact impl_deref_trait_zero_marked input m (.unnamed []) [] h rfl rfl

/-- C6 amended witness: concrete unit, empty named, and empty positional
structures get their respective diagnostics. -/
theorem zero_field_struct_diagnostics_witness :
    impl_deref_trait unitInput false = .error .unitNotSupported ∧
    impl_deref_trait emptyNamedInput true =
      .error (.mustHaveOne (attrNameOf true)) ∧
    impl_deref_trait emptyUnnamedInput false =
      .error (.mustHaveOne (attrNameOf false)) :=
  ⟨(zero_field_struct_diagnostics unitInput false).1 rfl,
   (zero_field_struct_diagnostics emptyNamedInput true).2.1 rfl,
   (zero_field_struct_diagnostics emptyUnnamedInput false).2.2 rfl⟩

/-- C7: for every declaration that is not a structure (an enumeration or
a union), both annotation-based entry points fail with the
"can only be used on structs" diagnostic naming their trait, and emit
nothing (the result is an error). -/
theorem non_struct_rejected_both_entry_points (input : DeriveInput)
    (h : input.data = .enum ∨ input.data = .union) :
    derive_deref input = .error (.onlyStructs "Deref") ∧
    derive_deref_mut input = .error (.onlyStructs "DerefMut") ∧
    (GenError.onlyStructs "Deref").message =
      "Deref can only be used on structs" ∧
    (GenError.onlyStructs "DerefMut").message =
      "DerefMut can only be used on structs" := by
  rcases h with h | h <;>
    exact ⟨by simp [derive_deref, impl_deref_trait, h, traitNameOf],
           by simp [derive_deref_mut, impl_deref_trait, h, traitNameOf],
           rfl, rfl⟩

/-- C7 witness: a concrete enumeration is rejected by both entry points
with the structure-only diagnostic. -/
theorem non_struct_rejected_both_entry_points_witness :
    derive_deref enumInput = .error (.onlyStructs "Deref") ∧
    derive_deref_mut enumInput = .error (.onlyStructs "DerefMut") ∧
    (GenError.onlyStructs "Deref").message =
      "Deref can only be used on structs" ∧
    (GenError.onlyStructs "DerefMut").message =
      "DerefMut can only be used on structs" :=
  non_struct_rejected_both_entry_points enumInput (Or.inl rfl)

/-- C8: on every successful run, each emitted implementation carries the
declaration's impl generics, type generics, and where clause verbatim
(both the read accessor and, when present, the mutable accessor). -/
theorem generics_where_carried_verbatim (input : DeriveInput) (m : Bool)
    (impls : List TraitImpl) (h : impl_deref_trait input m = .ok impls) :
    ∀ d ∈ impls, d.implGenerics = input.generics.implGenerics ∧
      d.tyGenerics = input.generics.tyGenerics ∧
      d.whereClause = input.generics.whereClause := by
  obtain ⟨nm, gen, data⟩ := input
  cases data with
  | struct fields =>
    simp only [impl_deref_trait] at h
    cases hfind : find_deref_field fields (attrNameOf m) with
    | error e => rw [hfind] at h; cases h
    | ok p =>
      obtain ⟨df, ty⟩ := p
      rw [hfind] at h
      cases m with
      | false =>
        simp only [Bool.false_eq_true, if_false] at h
        injection h with h'
        subst h'
        intro d hd
        simp only [List.mem_singleton] at hd
        subst hd
        exact ⟨rfl, rfl, rfl⟩
      | true =>
        simp only [if_true] at h
        injection h with h'
        subst h'
        intro d hd
        simp only [List.mem_cons, List.mem_singleton] at hd
        rcases hd with rfl | rfl | hd
        · exact ⟨rfl, rfl, rfl⟩
        · exact ⟨rfl, rfl, rfl⟩
        · cases hd
  | enum => simp only [impl_deref_trait] at h; cases h
  | union => simp only [impl_deref_trait] at h; cases h

/-- C8 witness: on a concrete generic declaration, both emitted
implementations carry the declaration's generics and where clause. -/
theorem generics_where_carried_verbatim_witness :
    (sampleDerefImpl.implGenerics = sampleInput.generics.implGenerics ∧
     sampleDerefImpl.tyGenerics = sampleInput.generics.tyGenerics ∧
     sampleDerefImpl.whereClause = sampleInput.generics.whereClause) ∧
    (sampleDerefMutImpl.implGenerics = sampleInput.generics.implGenerics ∧
     sampleDerefMutImpl.tyGenerics = sampleInput.generics.tyGenerics ∧
     sampleDerefMutImpl.whereClause = sampleInput.generics.whereClause) :=
  ⟨generics_where_carried_verbatim sampleInput true sampleMutImpls rfl
     sampleDerefImpl (List.mem_cons_self _ _),
   generics_where_carried_verbatim sampleInput true sampleMutImpls rfl
     sampleDerefMutImpl (List.mem_cons_of_mem _ (List.mem_cons_self _ _))⟩

/-- C9: the annotation-based generator is deterministic: any two runs on
the same declaration and the same mutability flag return the same result
(the embedding is a pure function of the declaration and the flag, and
the input declaration is never mutated). -/
theorem impl_deref_trait_deterministic_runs (input : DeriveInput)
    (m : Bool) (r₁ r₂ : Except GenError (List TraitImpl))
    (h₁ : r₁ = impl_deref_trait input m)
    (h₂ : r₂ = impl_deref_trait input m) : r₁ = r₂ :=
  h₁.trans h₂.symm

/-- C9 witness: two concrete runs on the sample declaration agree. -/
theorem impl_deref_trait_deterministic_runs_witness :
    (Except.ok sampleMutImpls : Except GenError (List TraitImpl)) =
      Except.ok sampleMutImpls :=
  impl_deref_trait_deterministic_runs sampleInput true
    (.ok sampleMutImpls) (.ok sampleMutImpls) rfl rfl

/-- C10: for every structure declaration whose fields are marked only
with the registered helper attribute (the one the derive entry points in
`lib.rs` register and document), the scan finds zero marked fields and
both entry points fail with the "Must have one field marked" diagnostic:
the scan searches for attributes literally named after the entry point
("deref" or "deref_mut"), never the registered helper name, and a field
carries an attribute name exactly when that name is in its attribute
list. -/
theorem auto_ref_marked_fields_never_selected (input : DeriveInput)
    (fields : StructFields) (fs : List Field)
    (hdata : input.data = .struct fields)
    (hfs : fieldList fields = some fs)
    (hattrs : fs.all
      (fun f => f.attrs.all (fun a => a = registeredHelperAttr)) = true) :
    derive_deref input = .error (.mustHaveOne "deref") ∧
    derive_deref_mut input = .error (.mustHaveOne "deref_mut") ∧
    attrNameOf false ≠ registeredHelperAttr ∧
    attrNameOf true ≠ registeredHelperAttr ∧
    (∀ f : Field, ∀ name : String,
      has_attribute f.attrs name = true ↔ name ∈ f.attrs) := by
  have hzero : ∀ aname : String, aname ≠ registeredHelperAttr →
      markedFields aname fs = [] := by
    intro aname hne
    simp only [markedFields]
    rw [List.filter_eq_nil_iff]
    intro p hp
    have hmem : p.2 ∈ fs :=
      List.getElem?_mem (List.mem_enum_iff_getElem?.mp hp)
    simp only [List.all_eq_true, decide_eq_true_eq] at hattrs
    have hall := hattrs p.2 hmem
    simp only [has_attribute, List.any_eq_true, decide_eq_true_eq,
      not_exists, not_and]
    intro x hx
    rw [hall x hx]
    exact fun hc => hne hc.symm
  refine ⟨?_, ?_, by decide, by decide, ?_⟩
  · exact impl_deref_trait_zero_marked input false fields fs hdata hfs
      (hzero _ (by decide))
  · exact impl_deref_trait_zero_marked input true fields fs hdata hfs
      (hzero _ (by decide))
  · intro f name
    simp [has_attribute, List.any_eq_true]

/-- C10 witness: on a concrete declaration whose only field is marked
just with the registered helper attribute, both entry points fail with
the "Must have one field marked" diagnostic. -/
theorem auto_ref_marked_fields_never_selected_witness :
    derive_deref autoRefInput = .error (.mustHaveOne "deref") ∧
    derive_deref_mut autoRefInput = .error (.mustHaveOne "deref_mut") ∧
    attrNameOf false ≠ registeredHelperAttr ∧
    attrNameOf true ≠ registeredHelperAttr ∧
    (∀ f : Field, ∀ name : String,
      has_attribute f.attrs name = true ↔ name ∈ f.attrs) :=
  auto_ref_marked_fields_never_selected autoRefInput
    (.named [autoField]) [autoField] rfl rfl (by decide)

end DerefRs
